import Mathlib

/-
Verification of the statistics-polling and API-request core of
`src/static/js/main.js` (the SecureBank fraud-detection dashboard front end).

The embedding covers:
  * a JSON value model with `JSON.stringify` / `JSON.parse`
    (numeric values are modelled as integers: no claim in this development
    depends on non-integral or floating-point numerics);
  * `apiRequest(url, method, data)` including its request construction,
    response handling, toast side effect and rethrow policy;
  * `updateStats()` including `formatCurrency`, the `toFixed(2)` rendering,
    the four output sinks and the trailing `.catch`;
  * the module-level `setInterval` guard on `window.location.pathname`;
  * the `showToast` timer chain (5000 ms display, 300 ms fade-out).

JavaScript runtime conventions used throughout: `undefined` is represented
by `Option.none` where a value may be absent; truthiness, `String(·)`
coercion and `Number(·)` coercion are modelled explicitly on JSON values.
-/

-- ===============================================================
-- JSON value model
-- ===============================================================


/-- A JSON value as produced by `JSON.parse` / consumed by `JSON.stringify`.
Numbers are modelled as integers (see the header comment). -/
inductive Json where
  | null
  | bool (b : Bool)
  | num (n : Int)
  | str (s : String)
  | arr (xs : List Json)
  | obj (kvs : List (String × Json))
deriving Repr

/-- Decimal digit character for `n < 10`. -/
def digitChar : Nat → Char
  | 0 => '0' | 1 => '1' | 2 => '2' | 3 => '3' | 4 => '4'
  | 5 => '5' | 6 => '6' | 7 => '7' | 8 => '8' | 9 => '9'
  | _ => '?'

/-- Numeric value of a decimal digit character. -/
def digitVal (c : Char) : Nat := c.toNat - 48

/-- Decimal digit test (code points 48–57). -/
def isDigitC (c : Char) : Bool := 48 ≤ c.toNat && c.toNat ≤ 57

/-- Lower-case hexadecimal digit character for `n < 16`. -/
def hexChar : Nat → Char
  | 0 => '0' | 1 => '1' | 2 => '2' | 3 => '3' | 4 => '4'
  | 5 => '5' | 6 => '6' | 7 => '7' | 8 => '8' | 9 => '9'
  | 10 => 'a' | 11 => 'b' | 12 => 'c' | 13 => 'd' | 14 => 'e' | 15 => 'f'
  | _ => '?'

/-- Numeric value of a hexadecimal digit character (either case). -/
def hexVal (c : Char) : Option Nat :=
  if 48 ≤ c.toNat && c.toNat ≤ 57 then some (c.toNat - 48)
  else if 97 ≤ c.toNat && c.toNat ≤ 102 then some (c.toNat - 87)
  else if 65 ≤ c.toNat && c.toNat ≤ 70 then some (c.toNat - 55)
  else none

/-- Canonical decimal digits of a natural number (no leading zeros). -/
def natDigits (n : Nat) : List Char :=
  if _h : n < 10 then [digitChar n]
  else natDigits (n / 10) ++ [digitChar (n % 10)]
termination_by n
decreasing_by exact Nat.div_lt_self (by omega) (by omega)

/-- Decimal rendering of an integer, as emitted by `JSON.stringify` and
`String(·)` for integral numbers. -/
def intDigits (n : Int) : List Char :=
  if n < 0 then '-' :: natDigits n.natAbs else natDigits n.natAbs

/-- String-escape of one character, following `JSON.stringify`: `"` and `\`
are backslash-escaped, the named control characters use their short escapes,
all other control characters use `\u00XX`, everything else is emitted raw. -/
def escChar (c : Char) : List Char :=
  if c = '"' then ['\\', '"']
  else if c = '\\' then ['\\', '\\']
  else if c = '\n' then ['\\', 'n']
  else if c = '\r' then ['\\', 'r']
  else if c = '\t' then ['\\', 't']
  else if c = '\x08' then ['\\', 'b']
  else if c = '\x0c' then ['\\', 'f']
  else if c.toNat < 32 then ['\\', 'u', '0', '0', hexChar (c.toNat / 16), hexChar (c.toNat % 16)]
  else [c]

/-- String-escape of a character list. -/
def escList : List Char → List Char
  | [] => []
  | c :: cs => escChar c ++ escList cs

/-- A JSON string literal: opening quote, escaped body, closing quote. -/
def quoteL (s : List Char) : List Char := '"' :: (escList s ++ ['"'])

mutual

/-- Characters of `JSON.stringify` applied to a JSON value (default options:
no whitespace is inserted). -/
def stringifyL : Json → List Char
  | .null => "null".data
  | .bool true => "true".data
  | .bool false => "false".data
  | .num n => intDigits n
  | .str s => quoteL s.data
  | .arr xs => '[' :: (stringifyArrL xs ++ [']'])
  | .obj kvs => '\x7b' :: (stringifyObjL kvs ++ ['\x7d'])

/-- Comma-separated stringification of array elements. -/
def stringifyArrL : List Json → List Char
  | [] => []
  | [x] => stringifyL x
  | x :: y :: rest => stringifyL x ++ ',' :: stringifyArrL (y :: rest)

/-- Comma-separated stringification of object entries (`"key":value`). -/
def stringifyObjL : List (String × Json) → List Char
  | [] => []
  | [(k, v)] => quoteL k.data ++ ':' :: stringifyL v
  | (k, v) :: e :: rest => quoteL k.data ++ ':' :: stringifyL v ++ ',' :: stringifyObjL (e :: rest)

end

/-- The model of `JSON.stringify`. -/
def stringifyJson (v : Json) : String := String.mk (stringifyL v)

/-- JavaScript truthiness of a JSON value: `null`, `false`, `0` and `""` are
falsy; every object and array (including empty ones) is truthy. -/
def truthyJson : Json → Bool
  | .null => false
  | .bool b => b
  | .num n => n != 0
  | .str s => s != ""
  | .arr _ => true
  | .obj _ => true

mutual

/-- JavaScript `String(·)` coercion of a JSON value: arrays render as their
elements joined with commas (as by `Array.prototype.toString`), plain
objects render as `"[object Object]"`. -/
def jsToString : Json → String
  | .null => "null"
  | .bool true => "true"
  | .bool false => "false"
  | .num n => String.mk (intDigits n)
  | .str s => s
  | .arr xs => joinArr xs
  | .obj _ => "[object Object]"

/-- Comma-join of array elements under `String(·)`; a `null` element renders
as the empty string (as in `Array.prototype.join`). -/
def joinArr : List Json → String
  | [] => ""
  | [Json.null] => ""
  | [x] => jsToString x
  | Json.null :: y :: rest => "," ++ joinArr (y :: rest)
  | x :: y :: rest => jsToString x ++ "," ++ joinArr (y :: rest)

end

/-- Membership of a key among an object's entries. -/
def keyMem (k : String) : List (String × Json) → Bool
  | [] => false
  | (k', _) :: t => k == k' || keyMem k t

/-- First-match association lookup, the model of own-property access on a
JavaScript object (`none` plays the role of `undefined`). -/
def lookupField : List (String × Json) → String → Option Json
  | [], _ => none
  | (k, v) :: t, key => if k == key then some v else lookupField t key

/-- Property assignment on a JavaScript object: an existing key keeps its
position and gets the new value, a new key is appended. -/
def objInsert (kvs : List (String × Json)) (k : String) (v : Json) : List (String × Json) :=
  if keyMem k kvs then kvs.map (fun e => if e.1 == k then (k, v) else e)
  else kvs ++ [(k, v)]

/-- Object built by assigning the listed entries in order, as `JSON.parse`
does while reading an object literal (duplicate keys: last value wins). -/
def objFromList (l : List (String × Json)) : List (String × Json) :=
  l.foldl (fun acc e => objInsert acc e.1 e.2) []

/-- Distinctness of the keys of an object's entry list. -/
def nodupKeys : List (String × Json) → Bool
  | [] => true
  | (k, _) :: t => !keyMem k t && nodupKeys t

mutual

/-- Well-formedness of a JSON value as an actual JavaScript runtime value:
object key lists contain no duplicates (a JavaScript object cannot hold the
same own property twice). -/
def jwf : Json → Bool
  | .null => true
  | .bool _ => true
  | .num _ => true
  | .str _ => true
  | .arr xs => jwfList xs
  | .obj kvs => nodupKeys kvs && jwfEntries kvs

/-- Well-formedness of all elements of an array. -/
def jwfList : List Json → Bool
  | [] => true
  | x :: t => jwf x && jwfList t

/-- Well-formedness of all values of an object's entries. -/
def jwfEntries : List (String × Json) → Bool
  | [] => true
  | (_, v) :: t => jwf v && jwfEntries t

end

-- ===============================================================
-- JSON parsing (the model of JSON.parse)
-- ===============================================================

/-- JSON insignificant whitespace. -/
def isJsonWs (c : Char) : Bool := c = ' ' || c = '\t' || c = '\n' || c = '\r'

/-- Skip insignificant whitespace. -/
def skipWs (l : List Char) : List Char := l.dropWhile isJsonWs

/-- Value of a decimal digit run. -/
def digitsToNat (l : List Char) : Nat := l.foldl (fun a c => 10 * a + digitVal c) 0

/-- Parse a JSON natural-number literal: a nonempty digit run with no leading
zero; a following `.`, `e` or `E` (a non-integral literal) is rejected, since
numbers are modelled as integers. -/
def parseNat (l : List Char) : Option (Nat × List Char) :=
  let ds := l.takeWhile isDigitC
  let rest := l.dropWhile isDigitC
  match ds with
  | [] => none
  | c :: cs =>
    if c = '0' && !cs.isEmpty then none
    else
      match rest with
      | r :: _ => if r = '.' || r = 'e' || r = 'E' then none else some (digitsToNat ds, rest)
      | [] => some (digitsToNat ds, rest)

/-- Parse a JSON number literal (optional leading minus). -/
def parseNumber (l : List Char) : Option (Json × List Char) :=
  match l with
  | '-' :: r => (parseNat r).map (fun p => (Json.num (-(p.1 : Int)), p.2))
  | _ => (parseNat l).map (fun p => (Json.num (p.1 : Int), p.2))

/-- Parse one string-escape sequence (the part after the backslash). -/
def parseEsc : List Char → Option (Char × List Char)
  | [] => none
  | e :: r =>
    if e = '"' then some ('"', r)
    else if e = '\\' then some ('\\', r)
    else if e = '/' then some ('/', r)
    else if e = 'b' then some ('\x08', r)
    else if e = 'f' then some ('\x0c', r)
    else if e = 'n' then some ('\n', r)
    else if e = 'r' then some ('\r', r)
    else if e = 't' then some ('\t', r)
    else if e = 'u' then
      match r with
      | h1 :: h2 :: h3 :: h4 :: r' =>
        match hexVal h1, hexVal h2, hexVal h3, hexVal h4 with
        | some a, some b, some c, some d =>
          let code := ((a * 16 + b) * 16 + c) * 16 + d
          if 0xD800 ≤ code && code < 0xE000 then none else some (Char.ofNat code, r')
        | _, _, _, _ => none
      | _ => none
    else none

/-- Parse a string body up to the closing quote; raw control characters are
rejected, escapes are decoded. The fuel argument bounds the recursion and is
supplied from the input length. -/
def parseStrBody : Nat → List Char → Option (List Char × List Char)
  | _, [] => none
  | 0, _ :: _ => none
  | fuel + 1, c :: rest =>
    if c = '"' then some ([], rest)
    else if c = '\\' then
      match parseEsc rest with
      | some (d, rest') => (parseStrBody fuel rest').map (fun p => (d :: p.1, p.2))
      | none => none
    else if c.toNat < 32 then none
    else (parseStrBody fuel rest).map (fun p => (c :: p.1, p.2))

/-- Parse a string body (entered after the opening quote). -/
def parseStr (l : List Char) : Option (List Char × List Char) :=
  parseStrBody (l.length + 1) l

/-- Expect a fixed literal tail (used for `null`, `true`, `false`). -/
def expectLit (pat : List Char) (l : List Char) (v : Json) : Option (Json × List Char) :=
  if l.take pat.length = pat then some (v, l.drop pat.length) else none

mutual

/-- Parse one JSON value (leading whitespace allowed), returning it together
with the unconsumed remainder. The fuel argument bounds nesting depth. -/
def parseV : Nat → List Char → Option (Json × List Char)
  | 0, _ => none
  | fuel + 1, l =>
    match skipWs l with
    | [] => none
    | c :: r =>
      if c = 'n' then expectLit ['u', 'l', 'l'] r .null
      else if c = 't' then expectLit ['r', 'u', 'e'] r (.bool true)
      else if c = 'f' then expectLit ['a', 'l', 's', 'e'] r (.bool false)
      else if c = '"' then (parseStr r).map (fun p => (.str (String.mk p.1), p.2))
      else if c = '[' then (parseArr fuel r).map (fun p => (.arr p.1, p.2))
      else if c = '\x7b' then (parseObjBody fuel r).map (fun p => (.obj (objFromList p.1), p.2))
      else parseNumber (c :: r)

/-- Parse an array body (entered after `[`): empty array or element list. -/
def parseArr : Nat → List Char → Option (List Json × List Char)
  | 0, _ => none
  | fuel + 1, l =>
    match skipWs l with
    | [] => none
    | c :: r => if c = ']' then some ([], r) else parseItems fuel (c :: r)

/-- Parse one or more comma-separated array elements up to `]`. -/
def parseItems : Nat → List Char → Option (List Json × List Char)
  | 0, _ => none
  | fuel + 1, l =>
    match parseV fuel l with
    | none => none
    | some (v, r) =>
      match skipWs r with
      | [] => none
      | c :: r' =>
        if c = ',' then
          match parseItems fuel r' with
          | some (vs, r'') => some (v :: vs, r'')
          | none => none
        else if c = ']' then some ([v], r')
        else none

/-- Parse an object body (entered after the opening brace). -/
def parseObjBody : Nat → List Char → Option (List (String × Json) × List Char)
  | 0, _ => none
  | fuel + 1, l =>
    match skipWs l with
    | [] => none
    | c :: r => if c = '\x7d' then some ([], r) else parseEntries fuel (c :: r)

/-- Parse one or more comma-separated `"key":value` entries up to the
closing brace. -/
def parseEntries : Nat → List Char → Option (List (String × Json) × List Char)
  | 0, _ => none
  | fuel + 1, l =>
    match skipWs l with
    | [] => none
    | c :: r =>
      if c = '"' then
        match parseStr r with
        | none => none
        | some (k, r1) =>
          match skipWs r1 with
          | [] => none
          | c2 :: r2 =>
            if c2 = ':' then
              match parseV fuel r2 with
              | none => none
              | some (v, r3) =>
                match skipWs r3 with
                | [] => none
                | c3 :: r4 =>
                  if c3 = ',' then
                    match parseEntries fuel r4 with
                    | some (es, r5) => some ((String.mk k, v) :: es, r5)
                    | none => none
                  else if c3 = '\x7d' then some ([(String.mk k, v)], r4)
                  else none
            else none
      else none

end

/-- The model of `JSON.parse`: parse one value and require that only
whitespace remains. Fails (`none`) on anything the grammar rejects; the
calling code surfaces this as a thrown `SyntaxError`. -/
def parseJson (s : String) : Option Json :=
  match parseV (3 * s.length + 3) s.data with
  | some (v, rest) => if (skipWs rest).isEmpty then some v else none
  | none => none

/-- Predicate on the remainder after a number literal: the next character (if
any) must not extend the literal. -/
def numOk : List Char → Bool
  | [] => true
  | c :: _ => !(isDigitC c || c = '.' || c = 'e' || c = 'E')

-- ===============================================================
-- Round-trip: depth measures and object reconstruction
-- ===============================================================

mutual

/-- Nesting depth of a JSON value, measured in parser call levels. -/
def jdepth : Json → Nat
  | .null => 1
  | .bool _ => 1
  | .num _ => 1
  | .str _ => 1
  | .arr xs => 2 + idepth xs
  | .obj kvs => 2 + edepth kvs

/-- Depth of an array element list as consumed by the element loop. -/
def idepth : List Json → Nat
  | [] => 0
  | x :: t => 1 + max (jdepth x) (idepth t)

/-- Depth of an object entry list as consumed by the entry loop. -/
def edepth : List (String × Json) → Nat
  | [] => 0
  | (_, v) :: t => 1 + max (jdepth v) (edepth t)

end

-- ===============================================================
-- apiRequest (lines 385-411 of src/static/js/main.js)
-- ===============================================================

/-- A toast notification as created by `showToast(message, type)`. -/
structure Toast where
  message : String
  ttype : String
deriving Repr, DecidableEq

/-- Outcome of the `fetch` call as observed by `apiRequest`: either a
transport failure (the promise rejects with this message) or a response
carrying its `ok` flag and the raw body text that `response.json()`
consumes. -/
inductive FetchOutcome where
  | netError (msg : String)
  | response (ok : Bool) (body : String)
deriving Repr

/-- The `options` object built by `apiRequest` and handed to `fetch`. -/
structure RequestOptions where
  method : String
  contentType : String
  body : Option String
deriving Repr, DecidableEq

/-- Model of the message of the `SyntaxError` raised by `JSON.parse` on
invalid input. -/
def syntaxErrorMsg : String := "SyntaxError: Unexpected token in JSON"

/-- Model of the message of the `TypeError` raised by a property access on
`null`. -/
def nullAccessErrorMsg : String := "TypeError: Cannot read properties of null"

/-- Lines 386–395 of `apiRequest`: the options carry the method, a JSON
content type, and a body equal to `JSON.stringify(data)` set only when
`data` is truthy (`if (data)`); `none` models the defaulted `data = null`. -/
def buildOptions (method : String) (data : Option Json) : RequestOptions :=
  { method := method
    contentType := "application/json"
    body :=
      match data with
      | some v => if truthyJson v then some (stringifyJson v) else none
      | none => none }

/-- JavaScript property read `v.key` on a parsed JSON value: throws a
`TypeError` on `null`, yields the own property on objects and `undefined`
(`none`) on every other value. -/
def getFieldJS (v : Json) (key : String) : Except String (Option Json) :=
  match v with
  | .null => .error nullAccessErrorMsg
  | .obj kvs => .ok (lookupField kvs key)
  | _ => .ok none

/-- The argument of `new Error(result.error || 'API request failed')`: the
`error` property's string rendering when that property is truthy, the
fallback `"API request failed"` otherwise. -/
def statusErrorMsg (fieldVal : Option Json) : String :=
  match fieldVal with
  | some v => if truthyJson v then jsToString v else "API request failed"
  | none => "API request failed"

/-- Lines 397–405, the `try` block of `apiRequest`: await `fetch`, await
`response.json()` (failing first on an unparseable body), and only then
throw the status error when `response.ok` is false. `Except.error` carries
the thrown failure's message. -/
def apiAttempt (net : FetchOutcome) : Except String Json :=
  match net with
  | .netError msg => .error msg
  | .response ok body =>
    match parseJson body with
    | none => .error syntaxErrorMsg
    | some result =>
      if !ok then
        match getFieldJS result "error" with
        | .error e => .error e
        | .ok fieldVal => .error (statusErrorMsg fieldVal)
      else .ok result

/-- Everything observable about one `apiRequest` call: the options sent to
`fetch`, the returned value or thrown failure, the toasts shown and the
console lines written. -/
structure ApiCall where
  sent : RequestOptions
  result : Except String Json
  toasts : List Toast
  logs : List String
deriving Repr

/-- Lines 385–411, `apiRequest(url, method, data)` run against a fetch
outcome: builds and sends the options, then returns the parsed body or
re-throws the failure. The `catch` block logs `API Error:`, shows an error
toast carrying the failure's message, and re-throws the same failure — it
never swallows it and never returns a value. -/
def apiRequest (method : String) (data : Option Json) (net : FetchOutcome) : ApiCall :=
  let options := buildOptions method data
  match apiAttempt net with
  | .ok result => ⟨options, .ok result, [], []⟩
  | .error e => ⟨options, .error e, [⟨e, "error"⟩], ["API Error: " ++ e]⟩

-- ===============================================================
-- updateStats (lines 515-535) with its formatters
-- ===============================================================

/-- The rendering context: the elements that exist, as an association of
element id to text content; `getElementById` finds the first entry. -/
abbrev Dom := List (String × String)

/-- Content of the element with the given id, when it exists. -/
def domText : Dom → String → Option String
  | [], _ => none
  | (k, t) :: rest, sinkId => if k = sinkId then some t else domText rest sinkId

/-- Lines 526–529: `const el = document.getElementById(id); if (el)
el.textContent = ...` — writes the first element with the id and silently
does nothing when it is absent. -/
def setTextIfPresent : Dom → String → String → Dom
  | [], _, _ => []
  | (k, t) :: rest, sinkId, v =>
    if k = sinkId then (k, v) :: rest else (k, t) :: setTextIfPresent rest sinkId v

/-- `Number('...')` on a string in the integer model: surrounding whitespace
is ignored, the empty string is 0, an optional sign followed by digits is
that integer, anything else is NaN (`none`). -/
def strToIntJS (s : String) : Option Int :=
  let t := ((s.data.dropWhile isJsonWs).reverse.dropWhile isJsonWs).reverse
  match t with
  | [] => some 0
  | '-' :: ds =>
    if !ds.isEmpty && ds.all isDigitC then some (-(digitsToNat ds : Int)) else none
  | '+' :: ds =>
    if !ds.isEmpty && ds.all isDigitC then some ((digitsToNat ds : Int)) else none
  | ds => if ds.all isDigitC then some ((digitsToNat ds : Int)) else none

/-- `Number(·)` coercion of the values `formatCurrency` can receive:
`undefined` (the absent field) is NaN, `null` is 0, booleans are 0/1,
strings parse numerically, arrays coerce through their comma-join, plain
objects are NaN. `none` in the result models NaN. -/
def toNumberJS : Option Json → Option Int
  | none => none
  | some .null => some 0
  | some (.bool b) => some (if b then 1 else 0)
  | some (.num n) => some n
  | some (.str s) => strToIntJS s
  | some (.arr xs) => strToIntJS (joinArr xs)
  | some (.obj _) => none

/-- Digit grouping of a reversed digit list: a comma after every three
digits (working from the least significant end). -/
def groupRev : List Char → List Char
  | d1 :: d2 :: d3 :: d4 :: rest => d1 :: d2 :: d3 :: ',' :: groupRev (d4 :: rest)
  | l => l

/-- Thousands-grouped decimal digits. -/
def groupDigits (ds : List Char) : List Char := (groupRev ds.reverse).reverse

/-- Dollar rendering of an integer amount in the `en-US`/`USD` locale:
currency symbol, grouped digits, always two decimals. -/
def formatUSD (n : Int) : String :=
  (if n < 0 then "-" else "") ++ "$" ++ String.mk (groupDigits (natDigits n.natAbs)) ++ ".00"

/-- Lines 152–157, `formatCurrency(amount)`:
`Intl.NumberFormat('en-US', {style: 'currency', currency: 'USD'})`
applied to the coerced number; a non-numeric argument renders as `$NaN`. -/
def formatCurrency (amount : Option Json) : String :=
  match toNumberJS amount with
  | some n => formatUSD n
  | none => "$NaN"

/-- `x.toFixed(2)`: only numbers have the method — a property access on
`undefined`/`null` throws, and other values have no such function; in the
integer model a number renders with exactly two zero decimals. -/
def toFixedJS : Option Json → Except String String
  | some (.num n) => .ok (String.mk (intDigits n) ++ ".00")
  | none => .error "TypeError: Cannot read properties of undefined"
  | some .null => .error nullAccessErrorMsg
  | some _ => .error "TypeError: toFixed is not a function"

/-- Assignment to `textContent`: `undefined` renders as `"undefined"`,
`null` as the empty string, everything else via `String(·)`. -/
def jsDisplay : Option Json → String
  | none => "undefined"
  | some .null => ""
  | some v => jsToString v

/-- Lines 517–523, the `elements` object literal of `updateStats`: the four
fields are read and formatted before any write; a thrown formatter
exception (`Except.error`) aborts the whole literal. -/
def statsElems (data : Json) : Except String (List (String × String)) :=
  match getFieldJS data "total_transactions" with
  | .error e => .error e
  | .ok total =>
    match getFieldJS data "total_amount" with
    | .error e => .error e
    | .ok amount =>
      match getFieldJS data "fraud_count" with
      | .error e => .error e
      | .ok fraud =>
        match getFieldJS data "fraud_rate" with
        | .error e => .error e
        | .ok rate =>
          match toFixedJS rate with
          | .error e => .error e
          | .ok rateStr =>
            .ok [("stat-total", jsDisplay total),
              ("stat-amount", formatCurrency amount),
              ("stat-fraud", jsDisplay fraud),
              ("stat-rate", rateStr ++ "%")]

/-- Lines 525–530: write each computed value to its sink, skipping the
absent ones, in the key order of the `elements` literal. -/
def applyElems (dom : Dom) (elems : List (String × String)) : Dom :=
  elems.foldl (fun d p => setTextIfPresent d p.1 p.2) dom

/-- The `.then` handler of `updateStats`: format, then render; its
exceptions flow to the `.catch`. -/
def tickRender (dom : Dom) (data : Json) : Except String Dom :=
  (statsElems data).map (applyElems dom)

/-- Lines 515–535, one run of `updateStats()` against a fetch outcome, as
the timer sees it: an `Except.error` would be an exception escaping to the
scheduler, but every failure of the chain — from `apiRequest` or from the
`.then` handler — is turned into a normal resolution by the trailing
`.catch`, which only logs `Failed to update stats:`. Returns the rendering
context, the toasts shown, and the console lines. -/
def updateStats (dom : Dom) (net : FetchOutcome) :
    Except String (Dom × List Toast × List String) :=
  let call := apiRequest "GET" none net
  match call.result with
  | .ok data =>
    match tickRender dom data with
    | .ok dom' => .ok (dom', call.toasts, call.logs)
    | .error e => .ok (dom, call.toasts, call.logs ++ ["Failed to update stats: " ++ e])
  | .error e => .ok (dom, call.toasts, call.logs ++ ["Failed to update stats: " ++ e])

-- ===============================================================
-- The module-level setInterval guard (lines 537-539)
-- ===============================================================

/-- Whether the pattern is an initial segment of the list. -/
def startsWithL : List Char → List Char → Bool
  | _, [] => true
  | [], _ :: _ => false
  | c :: cs, d :: ds => c == d && startsWithL cs ds

/-- Substring containment over character lists. -/
def containsSubL : List Char → List Char → Bool
  | [], pat => pat.isEmpty
  | c :: cs, pat => startsWithL (c :: cs) pat || containsSubL cs pat

/-- `String.prototype.includes`. -/
def jsIncludes (s sub : String) : Bool := containsSubL s.data sub.data

/-- Lines 537–539: the module top level registers the recurring
`setInterval(updateStats, 30000)` timer exactly when
`window.location.pathname.includes('dashboard')`. -/
def schedulePoller (pathname : String) : Option Nat :=
  if jsIncludes pathname "dashboard" then some 30000 else none

/-- Fire the scheduled ticks in order over the listed fetch outcomes,
stopping early if a tick ever raised an exception to the timer; each
executed tick performs exactly one `apiRequest` network call. Returns the
final rendering context and the number of network calls made. -/
def runTicks (dom : Dom) : List FetchOutcome → Dom × Nat
  | [] => (dom, 0)
  | net :: rest =>
    match updateStats dom net with
    | .ok (dom', _, _) =>
      let r := runTicks dom' rest
      (r.1, r.2 + 1)
    | .error _ => (dom, 1)

/-- A page lifetime: the guard consults the pathname once at load; when the
timer is registered, one tick fires per interval elapse (tick `i` at
`30000 * (i + 1)` ms). Returns the final rendering context, the network
calls made against `/api/stats`, and the fire times of executed ticks. -/
def pageRun (pathname : String) (dom : Dom) (nets : List FetchOutcome) :
    Dom × Nat × List Nat :=
  match schedulePoller pathname with
  | none => (dom, 0, [])
  | some period =>
    let r := runTicks dom nets
    (r.1, r.2, (List.range r.2).map (fun i => period * (i + 1)))

-- ===============================================================
-- showToast (lines 202-225)
-- ===============================================================

/-- Lines 235–243, `getToastIcon(type)`: the icon table with the `info`
fallback (`icons[type] || icons.info`). -/
def getToastIcon (ttype : String) : String :=
  if ttype == "success" then "check-circle"
  else if ttype == "error" then "exclamation-circle"
  else if ttype == "warning" then "exclamation-triangle"
  else if ttype == "info" then "info-circle"
  else "info-circle"

/-- The toast element built by `showToast`. -/
structure ToastNode where
  message : String
  icon : String
  className : String
deriving Repr

/-- A pending timer of the toast lifecycle with its fire time. -/
inductive ToastTimer where
  | fadeOut (fire : Nat)
  | removal (fire : Nat)
deriving Repr

/-- Observable state of one toast: its node, whether it is attached to the
document, whether the fade-out class has been added, and the single pending
timer of the chain. -/
structure ToastSim where
  node : ToastNode
  inDoc : Bool
  fadedOut : Bool
  timer : Option ToastTimer

/-- Lines 202–225, `showToast(message, type)` at time `t0`: the toast is
appended to the container with class `toast toast-<type> show`, and a
5000 ms timeout is scheduled. -/
def showToastNode (message ttype : String) : ToastNode :=
  { message := message
    icon := getToastIcon ttype
    className := "toast toast-" ++ ttype ++ " show" }

def showToastSim (message ttype : String) (t0 : Nat) : ToastSim :=
  { node := showToastNode message ttype
    inDoc := true
    fadedOut := false
    timer := some (.fadeOut (t0 + 5000)) }

/-- Fire the pending timer if it is due at `now`: the 5000 ms timeout adds
the `fade-out` class and schedules `toast.remove()` 300 ms later; the
removal timeout detaches the toast from the document. -/
def toastStep (s : ToastSim) (now : Nat) : ToastSim :=
  match s.timer with
  | some (.fadeOut t) =>
    if t ≤ now then { s with fadedOut := true, timer := some (.removal (t + 300)) } else s
  | some (.removal t) =>
    if t ≤ now then { s with inDoc := false, timer := none } else s
  | none => s

/-- Run the toast's timer chain (two timers at most) up to time `now`, with
no user interaction. -/
def toastRun (s : ToastSim) (now : Nat) : ToastSim := toastStep (toastStep s now) now

/-- Whether the tick against this outcome fails (either the request, or the
`.then` handler). -/
def tickFails (dom : Dom) (net : FetchOutcome) : Bool :=
  match (apiRequest "GET" none net).result with
  | .error _ => true
  | .ok data =>
    match tickRender dom data with
    | .error _ => true
    | .ok _ => false

/-- The message of whichever failure the tick hit (empty if it succeeded). -/
def tickFailure (dom : Dom) (net : FetchOutcome) : String :=
  match (apiRequest "GET" none net).result with
  | .error e => e
  | .ok data =>
    match tickRender dom data with
    | .error e => e
    | .ok _ => ""

/-- A rendering context exposing any subset of the four statistics sinks
(one Boolean per sink), with the given initial text contents. -/
def sinkDom (pt pa pf pr : Bool) (t a f r : String) : Dom :=
  (if pt then [("stat-total", t)] else [])
    ++ (if pa then [("stat-amount", a)] else [])
    ++ (if pf then [("stat-fraud", f)] else [])
    ++ (if pr then [("stat-rate", r)] else [])

-- ===============================================================
-- Theorems
-- ===============================================================

example : stringifyJson (.obj [("a", .num 1), ("b", .arr [.null, .bool true, .str "x\"y"])])
    = "\x7b\"a\":1,\"b\":[null,true,\"x\\\"y\"]\x7d" := by
  simp [stringifyJson, stringifyL, stringifyArrL, stringifyObjL, quoteL, escList, escChar,
    intDigits, natDigits, digitChar]

example : truthyJson (.bool false) = false := by rfl

example : jsToString (.arr [.num 1, .null, .str "a"]) = "1,,a" := by
  simp [jsToString, joinArr, intDigits, natDigits, digitChar]

example : parseJson "\x7b\"a\":1,\"b\":[null,true,\"x\\\"y\"]\x7d"
    = some (.obj [("a", .num 1), ("b", .arr [.null, .bool true, .str "x\"y"])]) := by rfl

example : parseJson " [1, -20, \"\\u0007\"] " = some (.arr [.num 1, .num (-20), .str "\x07"]) := by rfl

example : parseJson "\x7b\"error\":\"\"\x7d" = some (.obj [("error", .str "")]) := by rfl

example : parseJson "not json" = none := by rfl

example : parseJson "[1,]" = none := by rfl

example : parseJson "01" = none := by rfl

-- ===============================================================
-- Round-trip lemmas: digits and numbers
-- ===============================================================

theorem char_ne_of_toNat_ne {c d : Char} (h : c.toNat ≠ d.toNat) : c ≠ d :=
  fun he => h (by rw [he])

theorem isDigitC_bounds {c : Char} (h : isDigitC c = true) : 48 ≤ c.toNat ∧ c.toNat ≤ 57 := by
  simp [isDigitC] at h; exact h

theorem digitVal_digitChar {d : Nat} (h : d < 10) : digitVal (digitChar d) = d := by
  interval_cases d <;> rfl

theorem isDigitC_digitChar {d : Nat} (h : d < 10) : isDigitC (digitChar d) = true := by
  interval_cases d <;> rfl

theorem digitChar_ne_zero {d : Nat} (h0 : 0 < d) (h : d < 10) : digitChar d ≠ '0' := by
  interval_cases d <;> decide

/-- Head of a whitespace-skip over a non-whitespace-headed list. -/
theorem skipWs_cons {c : Char} (l : List Char) (h : isJsonWs c = false) :
    skipWs (c :: l) = c :: l := by
  simp [skipWs, List.dropWhile, h]

theorem natDigits_ne_nil (n : Nat) : natDigits n ≠ [] := by
  rw [natDigits]
  split
  · simp
  · simp

theorem natDigits_all_digits (n : Nat) : ∀ c ∈ natDigits n, isDigitC c = true := by
  induction n using Nat.strong_induction_on with
  | _ n ih =>
    rw [natDigits]
    split
    · intro c hc
      simp at hc
      subst hc
      exact isDigitC_digitChar (by omega)
    · intro c hc
      rw [List.mem_append] at hc
      rcases hc with hc | hc
      · exact ih (n / 10) (Nat.div_lt_self (by omega) (by omega)) c hc
      · simp at hc
        subst hc
        exact isDigitC_digitChar (Nat.mod_lt _ (by omega))

theorem natDigits_head_ne_zero {n : Nat} (hn : n ≠ 0) :
    ∀ c cs, natDigits n = c :: cs → c ≠ '0' := by
  induction n using Nat.strong_induction_on with
  | _ n ih =>
    intro c cs hd
    rw [natDigits] at hd
    split at hd
    · simp at hd
      exact hd.1 ▸ digitChar_ne_zero (by omega) (by omega)
    · rename_i hge
      have hne := natDigits_ne_nil (n / 10)
      rcases h10 : natDigits (n / 10) with _ | ⟨c', cs'⟩
      · exact absurd h10 hne
      · rw [h10] at hd
        simp at hd
        exact hd.1 ▸ ih (n / 10) (Nat.div_lt_self (by omega) (by omega))
            (by omega) c' cs' h10

theorem digitsToNat_natDigits (n : Nat) : digitsToNat (natDigits n) = n := by
  induction n using Nat.strong_induction_on with
  | _ n ih =>
    rw [natDigits]
    split
    · rename_i hlt
      simp [digitsToNat]
      exact digitVal_digitChar hlt
    · rename_i hge
      rw [digitsToNat, List.foldl_append]
      have := ih (n / 10) (Nat.div_lt_self (by omega) (by omega))
      rw [digitsToNat] at this
      rw [this]
      simp
      rw [digitVal_digitChar (Nat.mod_lt n (by omega))]
      omega

theorem takeWhile_all_append {p : Char → Bool} {l r : List Char}
    (hl : ∀ c ∈ l, p c = true) (hr : ∀ c cs, r = c :: cs → p c = false) :
    (l ++ r).takeWhile p = l ∧ (l ++ r).dropWhile p = r := by
  induction l with
  | nil =>
    simp
    cases r with
    | nil => simp
    | cons c cs =>
      have := hr c cs rfl
      simp [List.takeWhile, List.dropWhile, this]
  | cons c cs ih =>
    have hc := hl c (by simp)
    have := ih (fun x hx => hl x (by simp [hx]))
    simp [List.takeWhile, List.dropWhile, hc, this.1, this.2]

theorem parseNat_natDigits (n : Nat) (rest : List Char) (h : numOk rest = true) :
    parseNat (natDigits n ++ rest) = some (n, rest) := by
  have hall := natDigits_all_digits n
  have hrest : ∀ c cs, rest = c :: cs → isDigitC c = false := by
    intro c cs hc
    subst hc
    simp [numOk] at h
    simp [h.1]
  have hsplit := takeWhile_all_append hall hrest
  rcases hd : natDigits n with _ | ⟨c, cs⟩
  · exact absurd hd (natDigits_ne_nil n)
  · rw [parseNat]
    rw [hd] at hsplit
    rw [hsplit.1, hsplit.2]
    have hlead : (c = '0' && !cs.isEmpty) = false := by
      by_cases hn : n = 0
      · subst hn
        have h0 : natDigits 0 = ['0'] := by rw [natDigits]; rfl
        rw [h0] at hd
        cases hd
        simp
      · have := natDigits_head_ne_zero hn c cs hd
        simp [this]
    dsimp only
    rw [hlead]
    simp only [Bool.false_eq_true, if_false]
    have hval : digitsToNat (c :: cs) = n := hd ▸ digitsToNat_natDigits n
    cases rest with
    | nil => simp [hval]
    | cons r rs =>
      simp [numOk] at h
      obtain ⟨⟨⟨hrd, hdot⟩, hre⟩, hrE⟩ := h
      have hfollow : (r = '.' || r = 'e' || r = 'E') = false := by simp [hdot, hre, hrE]
      simp [hfollow, hval]

theorem hexVal_hexChar {d : Nat} (h : d < 16) : hexVal (hexChar d) = some d := by
  interval_cases d <;> rfl

theorem escList_length (s : List Char) : s.length ≤ (escList s).length := by
  induction s with
  | nil => simp [escList]
  | cons c cs ih =>
    rw [escList]
    have h1 : 1 ≤ (escChar c).length := by
      rw [escChar]
      split_ifs <;> simp
    rw [List.length_append, List.length_cons]
    omega

theorem parseStrBody_esc_step (f : Nat) (l l' : List Char) (d : Char)
    (h : parseEsc l = some (d, l')) :
    parseStrBody (f + 1) ('\\' :: l) = (parseStrBody f l').map (fun p => (d :: p.1, p.2)) := by
  simp only [parseStrBody]
  rw [if_pos trivial, h, if_neg (show ¬ ('\\' = '"') by decide)]

theorem parseStrBody_raw_step (f : Nat) (c : Char) (l : List Char)
    (h1 : ¬ c = '"') (h2 : ¬ c = '\\') (h8 : ¬ c.toNat < 32) :
    parseStrBody (f + 1) (c :: l) = (parseStrBody f l).map (fun p => (c :: p.1, p.2)) := by
  simp only [parseStrBody]
  rw [if_neg h1, if_neg h2, if_neg h8]

theorem parseStrBody_escList :
    ∀ (s : List Char) (fuel : Nat) (rest : List Char), s.length < fuel →
      parseStrBody fuel (escList s ++ '"' :: rest) = some (s, rest) := by
  intro s
  induction s with
  | nil =>
    intro fuel rest hf
    cases fuel with
    | zero => omega
    | succ f => exact rfl
  | cons c cs ih =>
    intro fuel rest hf
    cases fuel with
    | zero => omega
    | succ f =>
    have ihh := ih f rest (by simp at hf; omega)
    rw [escList, List.append_assoc]
    by_cases h1 : c = '"'
    · subst h1
      rw [show escChar '"' = ['\\', '"'] from rfl]
      rw [List.cons_append, List.cons_append, List.nil_append]
      rw [parseStrBody_esc_step f _ _ _
        (show parseEsc ('"' :: (escList cs ++ '"' :: rest))
          = some ('"', escList cs ++ '"' :: rest) from rfl)]
      simp [ihh]
    · by_cases h2 : c = '\\'
      · subst h2
        rw [show escChar '\\' = ['\\', '\\'] from rfl]
        rw [List.cons_append, List.cons_append, List.nil_append]
        rw [parseStrBody_esc_step f _ _ _
          (show parseEsc ('\\' :: (escList cs ++ '"' :: rest))
            = some ('\\', escList cs ++ '"' :: rest) from rfl)]
        simp [ihh]
      · by_cases h3 : c = '\n'
        · subst h3
          rw [show escChar '\n' = ['\\', 'n'] from rfl]
          rw [List.cons_append, List.cons_append, List.nil_append]
          rw [parseStrBody_esc_step f _ _ _
            (show parseEsc ('n' :: (escList cs ++ '"' :: rest))
              = some ('\n', escList cs ++ '"' :: rest) from rfl)]
          simp [ihh]
        · by_cases h4 : c = '\r'
          · subst h4
            rw [show escChar '\r' = ['\\', 'r'] from rfl]
            rw [List.cons_append, List.cons_append, List.nil_append]
            rw [parseStrBody_esc_step f _ _ _
              (show parseEsc ('r' :: (escList cs ++ '"' :: rest))
                = some ('\r', escList cs ++ '"' :: rest) from rfl)]
            simp [ihh]
          · by_cases h5 : c = '\t'
            · subst h5
              rw [show escChar '\t' = ['\\', 't'] from rfl]
              rw [List.cons_append, List.cons_append, List.nil_append]
              rw [parseStrBody_esc_step f _ _ _
                (show parseEsc ('t' :: (escList cs ++ '"' :: rest))
                  = some ('\t', escList cs ++ '"' :: rest) from rfl)]
              simp [ihh]
            · by_cases h6 : c = '\x08'
              · subst h6
                rw [show escChar '\x08' = ['\\', 'b'] from rfl]
                rw [List.cons_append, List.cons_append, List.nil_append]
                rw [parseStrBody_esc_step f _ _ _
                  (show parseEsc ('b' :: (escList cs ++ '"' :: rest))
                    = some ('\x08', escList cs ++ '"' :: rest) from rfl)]
                simp [ihh]
              · by_cases h7 : c = '\x0c'
                · subst h7
                  rw [show escChar '\x0c' = ['\\', 'f'] from rfl]
                  rw [List.cons_append, List.cons_append, List.nil_append]
                  rw [parseStrBody_esc_step f _ _ _
                    (show parseEsc ('f' :: (escList cs ++ '"' :: rest))
                      = some ('\x0c', escList cs ++ '"' :: rest) from rfl)]
                  simp [ihh]
                · by_cases h8 : c.toNat < 32
                  · have hesc : escChar c
                        = ['\\', 'u', '0', '0', hexChar (c.toNat / 16), hexChar (c.toNat % 16)] := by
                      rw [escChar]
                      simp [h1, h2, h3, h4, h5, h6, h7, h8]
                    rw [hesc]
                    have hhi : hexVal (hexChar (c.toNat / 16)) = some (c.toNat / 16) :=
                      hexVal_hexChar (by omega)
                    have hlo : hexVal (hexChar (c.toNat % 16)) = some (c.toNat % 16) :=
                      hexVal_hexChar (by omega)
                    have hu : parseEsc ('u' :: '0' :: '0' :: hexChar (c.toNat / 16)
                          :: hexChar (c.toNat % 16) :: (escList cs ++ '"' :: rest))
                        = some (c, escList cs ++ '"' :: rest) := by
                      rw [parseEsc]
                      rw [if_neg (by decide), if_neg (by decide), if_neg (by decide),
                        if_neg (by decide), if_neg (by decide), if_neg (by decide),
                        if_neg (by decide), if_neg (by decide), if_pos rfl]
                      rw [show hexVal '0' = some 0 from rfl, hhi, hlo]
                      have hns : ¬ (55296 ≤ ((0 * 16 + 0) * 16 + c.toNat / 16) * 16
                          + c.toNat % 16) := by omega
                      simp only [decide_eq_false hns, Bool.false_and, Bool.false_eq_true,
                        if_false]
                      have hcode : ((0 * 16 + 0) * 16 + c.toNat / 16) * 16 + c.toNat % 16
                          = c.toNat := by omega
                      rw [hcode, Char.ofNat_toNat]
                    rw [List.cons_append, List.cons_append, List.cons_append,
                      List.cons_append, List.cons_append, List.cons_append, List.nil_append]
                    rw [parseStrBody_esc_step f _ _ _ hu]
                    simp [ihh]
                  · have hesc : escChar c = [c] := by
                      rw [escChar]
                      simp [h1, h2, h3, h4, h5, h6, h7, h8]
                    rw [hesc]
                    rw [List.cons_append, List.nil_append]
                    rw [parseStrBody_raw_step f c _ h1 h2 h8]
                    simp [ihh]

theorem parseStr_escList (s : List Char) (rest : List Char) :
    parseStr (escList s ++ '"' :: rest) = some (s, rest) := by
  have hlen := escList_length s
  rw [parseStr]
  exact parseStrBody_escList s _ rest (by simp; omega)

theorem parseNumber_intDigits (n : Int) (rest : List Char) (h : numOk rest = true) :
    parseNumber (intDigits n ++ rest) = some (Json.num n, rest) := by
  rw [intDigits]
  by_cases hneg : n < 0
  · simp only [hneg, if_true, List.cons_append]
    rw [parseNumber]
    rw [parseNat_natDigits n.natAbs rest h]
    have habs : ((n.natAbs : Nat) : Int) = -n := by omega
    simp [habs]
  · simp only [hneg, if_false]
    have hall := natDigits_all_digits n.natAbs
    rcases hd : natDigits n.natAbs with _ | ⟨c, cs⟩
    · exact absurd hd (natDigits_ne_nil _)
    · have hcd : isDigitC c = true := hall c (hd ▸ by simp)
      have hcm : c ≠ '-' := by
        have hb := isDigitC_bounds hcd
        have h45 : ('-').toNat = 45 := rfl
        exact char_ne_of_toNat_ne (by omega)
      rw [parseNumber.eq_def]
      split
      · rename_i heq
        exfalso
        apply hcm
        injection heq with h1 _
      · rw [← hd]
        rw [parseNat_natDigits n.natAbs rest h]
        have habs : ((n.natAbs : Nat) : Int) = n := by omega
        simp [habs]

theorem jdepth_pos (v : Json) : 1 ≤ jdepth v := by
  cases v <;> simp [jdepth] <;> omega

theorem digit_props {c : Char} (h : isDigitC c = true) :
    isJsonWs c = false ∧ c ≠ ']' ∧ c ≠ '\x7d' ∧ c ≠ ',' ∧ c ≠ 'n' ∧ c ≠ 't' ∧ c ≠ 'f'
      ∧ c ≠ '"' ∧ c ≠ '[' ∧ c ≠ '\x7b' := by
  have hb := isDigitC_bounds h
  have hne : ∀ d : Char, (d.toNat < 48 ∨ 57 < d.toNat) → c ≠ d := by
    intro d hd
    exact char_ne_of_toNat_ne (by omega)
  refine ⟨?_, hne ']' (by decide), hne '\x7d' (by decide), hne ',' (by decide),
    hne 'n' (by decide), hne 't' (by decide), hne 'f' (by decide), hne '"' (by decide),
    hne '[' (by decide), hne '\x7b' (by decide)⟩
  simp [isJsonWs, hne ' ' (by decide), hne '\t' (by decide), hne '\n' (by decide),
    hne '\r' (by decide)]

theorem natDigits_head (n : Nat) :
    ∃ c cs, natDigits n = c :: cs ∧ isDigitC c = true := by
  rcases hd : natDigits n with _ | ⟨c, cs⟩
  · exact absurd hd (natDigits_ne_nil n)
  · exact ⟨c, cs, rfl, natDigits_all_digits n c (hd ▸ by simp)⟩

/-- Head character of a stringified value: never whitespace and never one of
the closing delimiters the surrounding grammar dispatches on. -/
theorem stringifyL_head (v : Json) :
    ∃ c cs, stringifyL v = c :: cs ∧ isJsonWs c = false ∧ c ≠ ']' ∧ c ≠ '\x7d' ∧ c ≠ ',' := by
  cases v with
  | null => exact ⟨'n', ['u', 'l', 'l'], by rw [show stringifyL Json.null = "null".data from by
      simp [stringifyL]], by decide, by decide, by decide, by decide⟩
  | bool b =>
    cases b with
    | true => exact ⟨'t', ['r', 'u', 'e'], by rw [show stringifyL (Json.bool true)
        = "true".data from by simp [stringifyL]], by decide, by decide, by decide, by decide⟩
    | false => exact ⟨'f', ['a', 'l', 's', 'e'], by rw [show stringifyL (Json.bool false)
        = "false".data from by simp [stringifyL]], by decide, by decide, by decide, by decide⟩
  | num n =>
    by_cases hn : n < 0
    · exact ⟨'-', natDigits n.natAbs, by simp [stringifyL, intDigits, hn], by decide,
        by decide, by decide, by decide⟩
    · obtain ⟨c, cs, hcs, hcd⟩ := natDigits_head n.natAbs
      have hp := digit_props hcd
      exact ⟨c, cs, by simp [stringifyL, intDigits, hn, hcs], hp.1, hp.2.1, hp.2.2.1,
        hp.2.2.2.1⟩
  | str s => exact ⟨'"', escList s.data ++ ['"'], by simp [stringifyL, quoteL], by decide,
      by decide, by decide, by decide⟩
  | arr xs => exact ⟨'[', stringifyArrL xs ++ [']'], by simp [stringifyL], by decide,
      by decide, by decide, by decide⟩
  | obj kvs => exact ⟨'\x7b', stringifyObjL kvs ++ ['\x7d'], by simp [stringifyL], by decide,
      by decide, by decide, by decide⟩

theorem keyMem_append (k : String) (l1 l2 : List (String × Json)) :
    keyMem k (l1 ++ l2) = (keyMem k l1 || keyMem k l2) := by
  induction l1 with
  | nil => simp [keyMem]
  | cons e t ih =>
    cases e
    simp [keyMem, ih, Bool.or_assoc]

theorem keyMem_false {k : String} {l : List (String × Json)} (h : keyMem k l = false) :
    ∀ p ∈ l, p.1 ≠ k := by
  induction l with
  | nil => intro p hp; simp at hp
  | cons e t ih =>
    cases e with
    | mk k' v =>
      rw [keyMem] at h
      simp at h
      intro p hp
      rcases List.mem_cons.mp hp with hp | hp
      · subst hp
        simp
        intro hk
        exact absurd hk.symm h.1
      · exact ih h.2 p hp

theorem objFromList_aux (l : List (String × Json)) :
    ∀ acc, nodupKeys l = true → (∀ p ∈ l, keyMem p.1 acc = false) →
      List.foldl (fun acc e => objInsert acc e.1 e.2) acc l = acc ++ l := by
  induction l with
  | nil => intro acc _ _; simp
  | cons e t ih =>
    intro acc hnd hdisj
    cases e with
    | mk k v =>
      rw [nodupKeys] at hnd
      simp at hnd
      have hka : keyMem k acc = false := hdisj (k, v) (by simp)
      rw [List.foldl_cons]
      rw [show objInsert acc k v = acc ++ [(k, v)] from by rw [objInsert]; simp [hka]]
      rw [ih (acc ++ [(k, v)]) hnd.2]
      · simp
      · intro p hp
        rw [keyMem_append]
        have h1 : keyMem p.1 acc = false := hdisj p (by simp [hp])
        have h2 : p.1 ≠ k := keyMem_false (by simp [hnd.1]) p hp
        simp [h1, keyMem, h2]

/-- Rebuilding a duplicate-free entry list by repeated property assignment
reproduces it unchanged. -/
theorem objFromList_nodup {l : List (String × Json)} (h : nodupKeys l = true) :
    objFromList l = l := by
  rw [objFromList, objFromList_aux l [] h (by intro p _; rfl)]
  simp

theorem strMk_data (s : String) : String.mk s.data = s := by cases s; rfl

/-- Round trip of `JSON.parse` over `JSON.stringify`, by strong induction on
parser fuel, simultaneously for values, array-element lists and object-entry
lists. -/
theorem roundtripAux (fuel : Nat) :
    (∀ v rest, jdepth v ≤ fuel → jwf v = true → numOk rest = true →
       parseV fuel (stringifyL v ++ rest) = some (v, rest)) ∧
    (∀ xs rest, idepth xs ≤ fuel → jwfList xs = true → xs ≠ [] →
       parseItems fuel (stringifyArrL xs ++ ']' :: rest) = some (xs, rest)) ∧
    (∀ kvs rest, edepth kvs ≤ fuel → jwfEntries kvs = true → kvs ≠ [] →
       parseEntries fuel (stringifyObjL kvs ++ '\x7d' :: rest) = some (kvs, rest)) := by
  induction fuel using Nat.strong_induction_on with
  | _ fuel ih =>
  refine ⟨?_, ?_, ?_⟩
  · -- parseV
    intro v rest hdep hwf hnum
    cases fuel with
    | zero => have := jdepth_pos v; omega
    | succ f =>
    cases v with
    | null =>
      rw [show stringifyL .null = "null".data from by simp [stringifyL]]
      exact rfl
    | bool b =>
      cases b with
      | true =>
        rw [show stringifyL (.bool true) = "true".data from by simp [stringifyL]]
        exact rfl
      | false =>
        rw [show stringifyL (.bool false) = "false".data from by simp [stringifyL]]
        exact rfl
    | num n =>
      rw [show stringifyL (.num n) = intDigits n from by simp [stringifyL]]
      by_cases hn : n < 0
      · have hi : intDigits n = '-' :: natDigits n.natAbs := by simp [intDigits, hn]
        rw [hi, List.cons_append]
        rw [show parseV (f + 1) ('-' :: (natDigits n.natAbs ++ rest))
            = parseNumber ('-' :: (natDigits n.natAbs ++ rest)) from rfl]
        rw [← List.cons_append, ← hi]
        exact parseNumber_intDigits n rest hnum
      · have hi : intDigits n = natDigits n.natAbs := by simp [intDigits, hn]
        rw [hi]
        obtain ⟨c, cs, hcs, hcd⟩ := natDigits_head n.natAbs
        have hp := digit_props hcd
        rw [hcs, List.cons_append]
        simp only [parseV]
        rw [skipWs_cons _ hp.1]
        dsimp only
        rw [if_neg hp.2.2.2.2.1, if_neg hp.2.2.2.2.2.1, if_neg hp.2.2.2.2.2.2.1,
          if_neg hp.2.2.2.2.2.2.2.1, if_neg hp.2.2.2.2.2.2.2.2.1,
          if_neg hp.2.2.2.2.2.2.2.2.2]
        rw [← List.cons_append, ← hcs, ← hi]
        exact parseNumber_intDigits n rest hnum
    | str s =>
      rw [show stringifyL (.str s) = '"' :: (escList s.data ++ ['"']) from by
        simp [stringifyL, quoteL]]
      rw [List.cons_append, List.append_assoc]
      rw [show ['"'] ++ rest = '"' :: rest from rfl]
      rw [show parseV (f + 1) ('"' :: (escList s.data ++ '"' :: rest))
          = (parseStr (escList s.data ++ '"' :: rest)).map
              (fun p => (Json.str (String.mk p.1), p.2)) from rfl]
      rw [parseStr_escList]
      simp [strMk_data]
    | arr xs =>
      rw [show stringifyL (.arr xs) = '[' :: (stringifyArrL xs ++ [']']) from by
        simp [stringifyL]]
      rw [List.cons_append, List.append_assoc]
      rw [show [']'] ++ rest = ']' :: rest from rfl]
      rw [show parseV (f + 1) ('[' :: (stringifyArrL xs ++ ']' :: rest))
          = (parseArr f (stringifyArrL xs ++ ']' :: rest)).map
              (fun p => (Json.arr p.1, p.2)) from rfl]
      have hda : jdepth (Json.arr xs) = 2 + idepth xs := by simp [jdepth]
      cases xs with
      | nil =>
        rw [show stringifyArrL ([] : List Json) = [] from by simp [stringifyArrL],
          List.nil_append]
        cases f with
        | zero =>
          exfalso
          have h0 : idepth ([] : List Json) = 0 := by simp [idepth]
          omega
        | succ f' =>
          rw [show parseArr (f' + 1) (']' :: rest) = some ([], rest) from rfl]
          rfl
      | cons x t =>
        have hi1 : 1 ≤ idepth (x :: t) := by simp [idepth]
        cases f with
        | zero => exfalso; omega
        | succ f' =>
        obtain ⟨Z, hZ⟩ : ∃ Z, stringifyArrL (x :: t) = stringifyL x ++ Z := by
          cases t with
          | nil => exact ⟨[], by simp [stringifyArrL]⟩
          | cons y t' => exact ⟨',' :: stringifyArrL (y :: t'), by simp [stringifyArrL]⟩
        obtain ⟨c, cs, hcx, hws, hbr, _, _⟩ := stringifyL_head x
        rw [hZ, List.append_assoc, hcx, List.cons_append]
        simp only [parseArr]
        rw [skipWs_cons _ hws]
        dsimp only
        rw [if_neg hbr]
        rw [← List.cons_append, ← hcx, ← List.append_assoc, ← hZ]
        rw [(ih f' (by omega)).2.1 (x :: t) rest (by omega)
          (by simpa [jwf] using hwf) (by simp)]
        rfl
    | obj kvs =>
      rw [show stringifyL (.obj kvs) = '\x7b' :: (stringifyObjL kvs ++ ['\x7d']) from by
        simp [stringifyL]]
      rw [List.cons_append, List.append_assoc]
      rw [show ['\x7d'] ++ rest = '\x7d' :: rest from rfl]
      rw [show parseV (f + 1) ('\x7b' :: (stringifyObjL kvs ++ '\x7d' :: rest))
          = (parseObjBody f (stringifyObjL kvs ++ '\x7d' :: rest)).map
              (fun p => (Json.obj (objFromList p.1), p.2)) from rfl]
      have hdo : jdepth (Json.obj kvs) = 2 + edepth kvs := by simp [jdepth]
      have hwf' : nodupKeys kvs = true ∧ jwfEntries kvs = true := by
        simpa [jwf] using hwf
      cases kvs with
      | nil =>
        rw [show stringifyObjL ([] : List (String × Json)) = [] from by simp [stringifyObjL],
          List.nil_append]
        cases f with
        | zero =>
          exfalso
          have h0 : edepth ([] : List (String × Json)) = 0 := by simp [edepth]
          omega
        | succ f' =>
          rw [show parseObjBody (f' + 1) ('\x7d' :: rest) = some ([], rest) from rfl]
          rfl
      | cons e t =>
        cases e with
        | mk k v =>
        have hi1 : 1 ≤ edepth ((k, v) :: t) := by simp [edepth]
        cases f with
        | zero => exfalso; omega
        | succ f' =>
        obtain ⟨Z, hZ⟩ : ∃ Z, stringifyObjL ((k, v) :: t)
            = '"' :: ((escList k.data ++ ['"']) ++ Z) := by
          cases t with
          | nil => exact ⟨':' :: stringifyL v, by simp [stringifyObjL, quoteL]⟩
          | cons e' t' => exact ⟨':' :: (stringifyL v ++ ',' :: stringifyObjL (e' :: t')),
              by simp [stringifyObjL, quoteL]⟩
        rw [hZ, List.cons_append]
        simp only [parseObjBody]
        rw [skipWs_cons _ (by decide)]
        dsimp only
        rw [if_neg (show ¬ ('"' = '\x7d') by decide)]
        rw [← List.cons_append, ← hZ]
        rw [(ih f' (by omega)).2.2 ((k, v) :: t) rest (by omega) hwf'.2 (by simp)]
        simp [objFromList_nodup hwf'.1]
  · -- parseItems
    intro xs rest hdep hwf hne
    cases xs with
    | nil => exact absurd rfl hne
    | cons x t =>
    have hix : idepth (x :: t) = 1 + max (jdepth x) (idepth t) := by simp [idepth]
    have hmx := Nat.le_max_left (jdepth x) (idepth t)
    have hmt := Nat.le_max_right (jdepth x) (idepth t)
    cases fuel with
    | zero => omega
    | succ f =>
    have hwf2 : jwf x = true ∧ jwfList t = true := by simpa [jwfList] using hwf
    simp only [parseItems]
    cases t with
    | nil =>
      rw [show stringifyArrL [x] = stringifyL x from by simp [stringifyArrL]]
      rw [(ih f (by omega)).1 x (']' :: rest) (by omega) hwf2.1 rfl]
      dsimp only
      rw [skipWs_cons _ (by decide)]
      dsimp only
      rw [if_neg (show ¬ (']' = ',') by decide), if_pos rfl]
    | cons y t' =>
      rw [show stringifyArrL (x :: y :: t') = stringifyL x ++ ',' :: stringifyArrL (y :: t')
          from by simp [stringifyArrL]]
      rw [List.append_assoc, List.cons_append]
      rw [(ih f (by omega)).1 x (',' :: (stringifyArrL (y :: t') ++ ']' :: rest))
        (by omega) hwf2.1 rfl]
      dsimp only
      rw [skipWs_cons _ (by decide)]
      dsimp only
      rw [if_pos rfl]
      rw [(ih f (by omega)).2.1 (y :: t') rest (by omega) hwf2.2 (by simp)]
  · -- parseEntries
    intro kvs rest hdep hwf hne
    cases kvs with
    | nil => exact absurd rfl hne
    | cons e t =>
    cases e with
    | mk k v =>
    have hie : edepth ((k, v) :: t) = 1 + max (jdepth v) (edepth t) := by simp [edepth]
    have hmv := Nat.le_max_left (jdepth v) (edepth t)
    have hmt := Nat.le_max_right (jdepth v) (edepth t)
    cases fuel with
    | zero => omega
    | succ f =>
    have hwf2 : jwf v = true ∧ jwfEntries t = true := by simpa [jwfEntries] using hwf
    simp only [parseEntries]
    cases t with
    | nil =>
      rw [show stringifyObjL [(k, v)] = quoteL k.data ++ ':' :: stringifyL v from by
        simp [stringifyObjL]]
      rw [show quoteL k.data = '"' :: (escList k.data ++ ['"']) from rfl]
      rw [List.cons_append, List.cons_append, List.append_assoc, List.append_assoc]
      rw [show ['"'] ++ (':' :: stringifyL v ++ '\x7d' :: rest)
          = '"' :: ':' :: (stringifyL v ++ '\x7d' :: rest) from rfl]
      rw [skipWs_cons _ (by decide)]
      dsimp only
      rw [if_pos rfl]
      rw [parseStr_escList]
      dsimp only
      rw [skipWs_cons _ (by decide)]
      dsimp only
      rw [if_pos rfl]
      rw [(ih f (by omega)).1 v ('\x7d' :: rest) (by omega) hwf2.1 rfl]
      dsimp only
      rw [skipWs_cons _ (by decide)]
      dsimp only
      rw [if_neg (show ¬ ('\x7d' = ',') by decide), if_pos rfl]
    | cons e' t' =>
      rw [show stringifyObjL ((k, v) :: e' :: t')
          = quoteL k.data ++ ':' :: stringifyL v ++ ',' :: stringifyObjL (e' :: t') from by
        simp [stringifyObjL]]
      rw [show quoteL k.data = '"' :: (escList k.data ++ ['"']) from rfl]
      simp only [List.cons_append, List.append_assoc, List.nil_append]
      rw [skipWs_cons _ (by decide)]
      dsimp only
      rw [if_pos rfl]
      rw [parseStr_escList]
      dsimp only
      rw [skipWs_cons _ (by decide)]
      dsimp only
      rw [if_pos rfl]
      rw [(ih f (by omega)).1 v (',' :: (stringifyObjL (e' :: t') ++ '\x7d' :: rest))
        (by omega) hwf2.1 rfl]
      dsimp only
      rw [skipWs_cons _ (by decide)]
      dsimp only
      rw [if_pos rfl]
      rw [(ih f (by omega)).2.2 (e' :: t') rest (by omega) hwf2.2 (by simp)]

/-- Parser depth of a value is linearly bounded by the length of its
stringification, so the fuel supplied by `parseJson` always suffices. -/
theorem depthBound :
    ∀ n : Nat,
      (∀ v : Json, sizeOf v ≤ n → jdepth v ≤ 3 * (stringifyL v).length + 1) ∧
      (∀ xs : List Json, sizeOf xs ≤ n → idepth xs ≤ 3 * (stringifyArrL xs).length + 2) ∧
      (∀ kvs : List (String × Json), sizeOf kvs ≤ n →
        edepth kvs ≤ 3 * (stringifyObjL kvs).length + 2) := by
  intro n
  induction n using Nat.strong_induction_on with
  | _ n ih =>
  refine ⟨?_, ?_, ?_⟩
  · intro v hv
    cases v with
    | null => simp [jdepth]
    | bool b => simp [jdepth]
    | num m => simp [jdepth]
    | str s => simp [jdepth]
    | arr xs =>
      have hs : sizeOf (Json.arr xs) = 1 + sizeOf xs := by simp
      have hb := (ih (sizeOf xs) (by omega)).2.1 xs (le_refl _)
      have hlen : (stringifyL (Json.arr xs)).length = (stringifyArrL xs).length + 2 := by
        simp [stringifyL]
      have hjd : jdepth (Json.arr xs) = 2 + idepth xs := by simp [jdepth]
      omega
    | obj kvs =>
      have hs : sizeOf (Json.obj kvs) = 1 + sizeOf kvs := by simp
      have hb := (ih (sizeOf kvs) (by omega)).2.2 kvs (le_refl _)
      have hlen : (stringifyL (Json.obj kvs)).length = (stringifyObjL kvs).length + 2 := by
        simp [stringifyL]
      have hjd : jdepth (Json.obj kvs) = 2 + edepth kvs := by simp [jdepth]
      omega
  · intro xs hxs
    cases xs with
    | nil => simp [idepth]
    | cons x t =>
      have hs : sizeOf (x :: t) = 1 + sizeOf x + sizeOf t := by simp
      have hszx : 0 < sizeOf x := by cases x <;> simp
      have hbx := (ih (sizeOf x) (by omega)).1 x (le_refl _)
      have hbt := (ih (sizeOf t) (by omega)).2.1 t (le_refl _)
      have hi : idepth (x :: t) = 1 + max (jdepth x) (idepth t) := by simp [idepth]
      cases t with
      | nil =>
        have h0 : idepth ([] : List Json) = 0 := by simp [idepth]
        have hA : stringifyArrL [x] = stringifyL x := by simp [stringifyArrL]
        rw [hi, hA, h0]
        omega
      | cons y t' =>
        have hA : (stringifyArrL (x :: y :: t')).length
            = (stringifyL x).length + 1 + (stringifyArrL (y :: t')).length := by
          simp [stringifyArrL]
          omega
        rw [hi, hA]
        omega
  · intro kvs hkvs
    cases kvs with
    | nil => simp [edepth]
    | cons e t =>
      cases e with
      | mk k v =>
      have hs : sizeOf ((k, v) :: t) = 1 + (1 + sizeOf k + sizeOf v) + sizeOf t := by simp
      have hbv := (ih (sizeOf v) (by omega)).1 v (le_refl _)
      have hbt := (ih (sizeOf t) (by omega)).2.2 t (le_refl _)
      have hi : edepth ((k, v) :: t) = 1 + max (jdepth v) (edepth t) := by simp [edepth]
      have hq : 2 ≤ (quoteL k.data).length := by simp [quoteL]
      cases t with
      | nil =>
        have h0 : edepth ([] : List (String × Json)) = 0 := by simp [edepth]
        have hA : (stringifyObjL [(k, v)]).length
            = (quoteL k.data).length + 1 + (stringifyL v).length := by
          simp [stringifyObjL]
          omega
        rw [hi, hA, h0]
        omega
      | cons e' t' =>
        have hA : (stringifyObjL ((k, v) :: e' :: t')).length
            = (quoteL k.data).length + 1 + (stringifyL v).length + 1
              + (stringifyObjL (e' :: t')).length := by
          simp [stringifyObjL]
          omega
        rw [hi, hA]
        omega

/-- Round trip: parsing the stringification of any well-formed JSON value
recovers the value (`JSON.parse(JSON.stringify(v)) = v`). -/
theorem parseJson_stringifyJson (v : Json) (h : jwf v = true) :
    parseJson (stringifyJson v) = some v := by
  have hdata : (stringifyJson v).data = stringifyL v := rfl
  have hlen : (stringifyJson v).length = (stringifyL v).length := rfl
  have hd := (depthBound (sizeOf v)).1 v (le_refl _)
  have hrt := (roundtripAux (3 * (stringifyL v).length + 3)).1 v [] (by omega) h rfl
  rw [List.append_nil] at hrt
  rw [parseJson, hdata, hlen, hrt]
  rfl

-- ===============================================================
-- Shared helper lemmas about the model
-- ===============================================================

/-- The options sent do not depend on the network outcome. -/
theorem apiRequest_sent (method : String) (data : Option Json) (net : FetchOutcome) :
    (apiRequest method data net).sent = buildOptions method data := by
  cases h : apiAttempt net <;> simp [apiRequest, h]

/-- The `.catch` of `updateStats` is exhaustive: no run ever raises an
exception to its caller. -/
theorem updateStats_ok (dom : Dom) (net : FetchOutcome) :
    ∃ r, updateStats dom net = Except.ok r := by
  cases h : (apiRequest "GET" none net).result with
  | error e =>
    exact ⟨(dom, (apiRequest "GET" none net).toasts,
      (apiRequest "GET" none net).logs ++ ["Failed to update stats: " ++ e]),
      by simp [updateStats, h]⟩
  | ok data =>
    cases ht : tickRender dom data with
    | error e =>
      exact ⟨(dom, (apiRequest "GET" none net).toasts,
        (apiRequest "GET" none net).logs ++ ["Failed to update stats: " ++ e]),
        by simp [updateStats, h, ht]⟩
    | ok dom' =>
      exact ⟨(dom', (apiRequest "GET" none net).toasts, (apiRequest "GET" none net).logs),
        by simp [updateStats, h, ht]⟩

/-- Every scheduled tick executes: a failed tick never halts the run. -/
theorem runTicks_count (nets : List FetchOutcome) :
    ∀ dom, (runTicks dom nets).2 = nets.length := by
  induction nets with
  | nil => intro dom; rfl
  | cons net rest ih =>
    intro dom
    obtain ⟨r, hr⟩ := updateStats_ok dom net
    simp [runTicks, hr, ih]

-- ===============================================================
-- Claim theorems
-- ===============================================================

/-- Claim C1, counterexample: `false` is a JSON-serializable payload
(`JSON.stringify(false) = "false"`), yet passing it as the `data` argument
of a POST `apiRequest` sends the request with no body at all, because the
source guards the body assignment with the truthiness test `if (data)`.
So the body does not equal the JSON serialization of the payload. -/
theorem apiRequest_falsy_payload_cex :
    stringifyJson (Json.bool false) = "false"
      ∧ (apiRequest "POST" (some (Json.bool false)) (.response true "\x7b\x7d")).sent.body
          = none
      ∧ (none : Option String) ≠ some "false" := by
  refine ⟨by simp [stringifyJson, stringifyL], rfl, by simp⟩

/-- Claim C1 (amended): for every truthy, well-formed JSON payload `P`, a
POST `apiRequest` sends a body equal to `JSON.stringify(P)`, and decoding
that body yields a value structurally equal to `P`; when the payload is
absent (`data = null`) no body is set. -/
theorem apiRequest_payload_roundtrip (method : String) (P : Json) (net : FetchOutcome)
    (hwf : jwf P = true) (ht : truthyJson P = true) :
    (apiRequest method (some P) net).sent.body = some (stringifyJson P)
      ∧ parseJson (stringifyJson P) = some P
      ∧ (apiRequest method none net).sent.body = none := by
  refine ⟨?_, parseJson_stringifyJson P hwf, ?_⟩
  · rw [apiRequest_sent]
    simp [buildOptions, ht]
  · rw [apiRequest_sent]
    rfl

theorem apiRequest_payload_roundtrip_witness :
    jwf (Json.obj [("amount", Json.num 250), ("flagged", Json.bool true)]) = true
      ∧ truthyJson (Json.obj [("amount", Json.num 250), ("flagged", Json.bool true)]) = true
      ∧ ((apiRequest "POST" (some (Json.obj [("amount", Json.num 250),
              ("flagged", Json.bool true)])) (.response true "\x7b\x7d")).sent.body
            = some (stringifyJson (Json.obj [("amount", Json.num 250),
                ("flagged", Json.bool true)]))
          ∧ parseJson (stringifyJson (Json.obj [("amount", Json.num 250),
              ("flagged", Json.bool true)]))
            = some (Json.obj [("amount", Json.num 250), ("flagged", Json.bool true)])
          ∧ (apiRequest "POST" none (.response true "\x7b\x7d")).sent.body = none)
      ∧ stringifyJson (Json.obj [("amount", Json.num 250), ("flagged", Json.bool true)])
          = "\x7b\"amount\":250,\"flagged\":true\x7d" := by
  have hwf : jwf (Json.obj [("amount", Json.num 250), ("flagged", Json.bool true)]) = true := by
    simp [jwf, jwfEntries, jwfList, nodupKeys, keyMem]
  refine ⟨hwf, rfl, apiRequest_payload_roundtrip "POST" _ _ hwf rfl, ?_⟩
  simp [stringifyJson, stringifyL, stringifyObjL, quoteL, escList, escChar, intDigits,
    natDigits, digitChar]

/-- Claim C2, counterexample: the non-2xx body `{"error":""}` parses to an
object that does have an `error` field (with value `""`), yet the failure
thrown by `apiRequest` carries the generic fallback `"API request failed"`
rather than that field's value, because the source computes the message with
`result.error || 'API request failed'` and the empty string is falsy. -/
theorem apiRequest_empty_error_field_cex :
    parseJson "\x7b\"error\":\"\"\x7d" = some (Json.obj [("error", Json.str "")])
      ∧ lookupField [("error", Json.str "")] "error" = some (Json.str "")
      ∧ (apiRequest "GET" none (.response false "\x7b\"error\":\"\"\x7d")).result
          = .error "API request failed"
      ∧ "API request failed" ≠ "" := by
  exact ⟨rfl, rfl, rfl, by simp⟩

/-- Claim C2 (amended): for a non-2xx response whose body parses as a JSON
value on which the `error` property read succeeds (any value except JSON
null), the thrown failure's message is the field's string rendering when
the field is present with a truthy value, and the generic fallback
`"API request failed"` when the field is absent or its value is falsy
(e.g. `""`, `0`, `false` or `null`). -/
theorem apiRequest_status_error_message (method : String) (data : Option Json)
    (body : String) (J : Json) (fv : Option Json)
    (hp : parseJson body = some J) (hf : getFieldJS J "error" = .ok fv) :
    (apiRequest method data (.response false body)).result = .error (statusErrorMsg fv)
      ∧ statusErrorMsg none = "API request failed"
      ∧ (∀ v, truthyJson v = false → statusErrorMsg (some v) = "API request failed")
      ∧ (∀ v, truthyJson v = true → statusErrorMsg (some v) = jsToString v) := by
  have h1 : apiAttempt (.response false body) = .error (statusErrorMsg fv) := by
    simp [apiAttempt, hp, hf]
  refine ⟨by simp [apiRequest, h1], rfl, ?_, ?_⟩
  · intro v hv
    simp [statusErrorMsg, hv]
  · intro v hv
    simp [statusErrorMsg, hv]

theorem apiRequest_status_error_message_witness :
    parseJson "\x7b\"error\":\"Invalid transaction\"\x7d"
        = some (Json.obj [("error", Json.str "Invalid transaction")])
      ∧ getFieldJS (Json.obj [("error", Json.str "Invalid transaction")]) "error"
          = .ok (some (Json.str "Invalid transaction"))
      ∧ (apiRequest "GET" none
            (.response false "\x7b\"error\":\"Invalid transaction\"\x7d")).result
          = .error "Invalid transaction" := by
  refine ⟨rfl, rfl, ?_⟩
  have h := apiRequest_status_error_message "GET" none
    "\x7b\"error\":\"Invalid transaction\"\x7d"
    (Json.obj [("error", Json.str "Invalid transaction")])
    (some (Json.str "Invalid transaction")) rfl rfl
  rw [h.1, h.2.2.2 (Json.str "Invalid transaction") rfl]
  simp [jsToString]

/-- Claim C3: whenever the tick fails — the request fails, or formatting any
snapshot field throws — `updateStats` leaves the rendering context entirely
unchanged (no partial update of any sink), appends one
`Failed to update stats:` console line, and resolves normally instead of
re-throwing (`Except.ok`, so nothing reaches the scheduler). -/
theorem updateStats_failure_atomic (dom : Dom) (net : FetchOutcome)
    (hfail : tickFails dom net = true) :
    updateStats dom net
      = .ok (dom, (apiRequest "GET" none net).toasts,
          (apiRequest "GET" none net).logs
            ++ ["Failed to update stats: " ++ tickFailure dom net]) := by
  cases h : (apiRequest "GET" none net).result with
  | error e => simp [updateStats, tickFailure, h]
  | ok data =>
    cases ht : tickRender dom data with
    | error e => simp [updateStats, tickFailure, h, ht]
    | ok dom' =>
      simp [tickFails, h, ht] at hfail

theorem updateStats_failure_atomic_witness :
    tickFails [("stat-total", "7"), ("stat-rate", "0.10%")] (.netError "network down") = true
      ∧ updateStats [("stat-total", "7"), ("stat-rate", "0.10%")] (.netError "network down")
          = .ok ([("stat-total", "7"), ("stat-rate", "0.10%")],
              (apiRequest "GET" none (.netError "network down")).toasts,
              (apiRequest "GET" none (.netError "network down")).logs
                ++ ["Failed to update stats: "
                    ++ tickFailure [("stat-total", "7"), ("stat-rate", "0.10%")]
                        (.netError "network down")])
      ∧ updateStats [("stat-total", "7"), ("stat-rate", "0.10%")] (.netError "network down")
          = .ok ([("stat-total", "7"), ("stat-rate", "0.10%")],
              [⟨"network down", "error"⟩],
              ["API Error: network down", "Failed to update stats: network down"]) := by
  exact ⟨rfl, updateStats_failure_atomic _ _ rfl, rfl⟩

/-- Claim C4: on every failure — transport error, unparseable body, or
non-2xx status — `apiRequest` shows exactly one error toast carrying the
failure's message and re-throws that same failure; on success it shows no
toast and returns the parsed value, so no failure is ever swallowed and no
value is ever returned on the failure path. -/
theorem apiRequest_dual_channel (method : String) (data : Option Json) (net : FetchOutcome) :
    (∀ e, (apiRequest method data net).result = .error e →
        (apiRequest method data net).toasts = [⟨e, "error"⟩]
          ∧ (apiRequest method data net).logs = ["API Error: " ++ e])
      ∧ ∀ v, (apiRequest method data net).result = .ok v →
          (apiRequest method data net).toasts = [] ∧ (apiRequest method data net).logs = [] := by
  cases h : apiAttempt net with
  | error e =>
    refine ⟨?_, ?_⟩
    · intro e' he'
      simp [apiRequest, h] at he' ⊢
      simp [he'.symm]
    · intro v hv
      simp [apiRequest, h] at hv
  | ok v =>
    refine ⟨?_, ?_⟩
    · intro e' he'
      simp [apiRequest, h] at he'
    · intro v' _
      simp [apiRequest, h]

theorem apiRequest_dual_channel_witness :
    (apiRequest "GET" none (.netError "fetch failed")).result = .error "fetch failed"
      ∧ (apiRequest "GET" none (.netError "fetch failed")).toasts
          = [⟨"fetch failed", "error"⟩]
      ∧ (apiRequest "GET" none (.netError "fetch failed")).logs
          = ["API Error: fetch failed"] := by
  have h := (apiRequest_dual_channel "GET" none (.netError "fetch failed")).1
    "fetch failed" rfl
  exact ⟨rfl, h.1, h.2⟩

/-- Claim C8: `apiRequest` awaits `response.json()` before it consults
`response.ok`, so a non-2xx response with an unparseable body fails with
the JSON parse error; the whole call is insensitive to the status flag in
that case, and the status-path messages (the `error` field or the fallback)
are never produced. -/
theorem apiRequest_parse_before_status (method : String) (data : Option Json)
    (body : String) (ok : Bool) (hbad : parseJson body = none) :
    (apiRequest method data (.response ok body)).result = .error syntaxErrorMsg
      ∧ apiRequest method data (.response false body)
          = apiRequest method data (.response true body)
      ∧ syntaxErrorMsg ≠ "API request failed" := by
  have h1 : apiAttempt (.response ok body) = .error syntaxErrorMsg := by
    simp [apiAttempt, hbad]
  have h2 : apiAttempt (.response false body) = .error syntaxErrorMsg := by
    simp [apiAttempt, hbad]
  have h3 : apiAttempt (.response true body) = .error syntaxErrorMsg := by
    simp [apiAttempt, hbad]
  refine ⟨by simp [apiRequest, h1], ?_, by simp [syntaxErrorMsg]⟩
  simp [apiRequest, h2, h3, buildOptions]

theorem apiRequest_parse_before_status_witness :
    parseJson "<html>Server Error</html>" = none
      ∧ (apiRequest "GET" none (.response false "<html>Server Error</html>")).result
          = .error syntaxErrorMsg
      ∧ apiRequest "GET" none (.response false "<html>Server Error</html>")
          = apiRequest "GET" none (.response true "<html>Server Error</html>")
      ∧ syntaxErrorMsg ≠ "API request failed" := by
  have h := apiRequest_parse_before_status "GET" none "<html>Server Error</html>" false rfl
  exact ⟨rfl, h.1, h.2.1, h.2.2⟩

/-- Claim C5: whatever subset of the four sinks exists, a successful tick
writes every present sink's freshly formatted value, silently skips every
absent sink (which stays absent), and does not fail; in particular with
`stat-fraud` absent the other three sinks are still updated. -/
theorem updateStats_missing_sinks (pt pa pf pr : Bool) (t0 a0 f0 r0 tv av fv rv : String)
    (data : Json) (net : FetchOutcome)
    (h : statsElems data = .ok [("stat-total", tv), ("stat-amount", av),
        ("stat-fraud", fv), ("stat-rate", rv)])
    (hok : (apiRequest "GET" none net).result = .ok data) :
    tickRender (sinkDom pt pa pf pr t0 a0 f0 r0) data
        = .ok (sinkDom pt pa pf pr tv av fv rv)
      ∧ updateStats (sinkDom pt pa pf pr t0 a0 f0 r0) net
          = .ok (sinkDom pt pa pf pr tv av fv rv, (apiRequest "GET" none net).toasts,
              (apiRequest "GET" none net).logs) := by
  have htick : tickRender (sinkDom pt pa pf pr t0 a0 f0 r0) data
      = .ok (sinkDom pt pa pf pr tv av fv rv) := by
    rw [tickRender, h]
    cases pt <;> cases pa <;> cases pf <;> cases pr <;> rfl
  exact ⟨htick, by simp [updateStats, hok, htick]⟩

theorem updateStats_missing_sinks_witness :
    statsElems (Json.obj [("total_transactions", Json.num 1250),
        ("total_amount", Json.num 45000), ("fraud_count", Json.num 25),
        ("fraud_rate", Json.num 2)])
        = .ok [("stat-total", "1250"), ("stat-amount", "$45,000.00"),
            ("stat-fraud", "25"), ("stat-rate", "2.00%")]
      ∧ (apiRequest "GET" none (.response true
            "\x7b\"total_transactions\":1250,\"total_amount\":45000,\"fraud_count\":25,\"fraud_rate\":2\x7d")).result
          = .ok (Json.obj [("total_transactions", Json.num 1250),
              ("total_amount", Json.num 45000), ("fraud_count", Json.num 25),
              ("fraud_rate", Json.num 2)])
      ∧ tickRender (sinkDom true true false true "" "" "" "")
            (Json.obj [("total_transactions", Json.num 1250),
              ("total_amount", Json.num 45000), ("fraud_count", Json.num 25),
              ("fraud_rate", Json.num 2)])
          = .ok (sinkDom true true false true "1250" "$45,000.00" "25" "2.00%")
      ∧ sinkDom true true false true "1250" "$45,000.00" "25" "2.00%"
          = [("stat-total", "1250"), ("stat-amount", "$45,000.00"), ("stat-rate", "2.00%")] := by
  have e1 : jsDisplay (some (Json.num 1250)) = "1250" := by
    simp [jsDisplay, jsToString, intDigits, natDigits, digitChar]
  have e2 : formatCurrency (some (Json.num 45000)) = "$45,000.00" := by
    simp [formatCurrency, toNumberJS, formatUSD, natDigits, digitChar, groupDigits, groupRev]
  have e3 : jsDisplay (some (Json.num 25)) = "25" := by
    simp [jsDisplay, jsToString, intDigits, natDigits, digitChar]
  have e4 : toFixedJS (some (Json.num 2)) = .ok "2.00" := by
    simp [toFixedJS, intDigits, natDigits, digitChar]
  have hse : statsElems (Json.obj [("total_transactions", Json.num 1250),
      ("total_amount", Json.num 45000), ("fraud_count", Json.num 25),
      ("fraud_rate", Json.num 2)])
      = .ok [("stat-total", "1250"), ("stat-amount", "$45,000.00"),
          ("stat-fraud", "25"), ("stat-rate", "2.00%")] := by
    simp [statsElems, getFieldJS, lookupField, e1, e2, e3, e4]
  refine ⟨hse, rfl, ?_, rfl⟩
  exact (updateStats_missing_sinks true true false true "" "" "" ""
    "1250" "$45,000.00" "25" "2.00%"
    (Json.obj [("total_transactions", Json.num 1250), ("total_amount", Json.num 45000),
      ("fraud_count", Json.num 25), ("fraud_rate", Json.num 2)])
    (.response true
      "\x7b\"total_transactions\":1250,\"total_amount\":45000,\"fraud_count\":25,\"fraud_rate\":2\x7d")
    hse rfl).1

/-- Claim C9: against a successful response whose body is an object missing
`fraud_rate`, the `toFixed` call throws a `TypeError`, so the tick fails
and no sink is written; against an object missing only `total_amount`, the
tick succeeds — `formatCurrency(undefined)` renders `$NaN` into
`stat-amount` instead of aborting, and all present sinks are still
written. -/
theorem updateStats_missing_fields (dom : Dom) (kvs1 kvs2 : List (String × Json))
    (net1 : FetchOutcome) (r : Int)
    (hok1 : (apiRequest "GET" none net1).result = .ok (Json.obj kvs1))
    (h1 : lookupField kvs1 "fraud_rate" = none)
    (h2a : lookupField kvs2 "total_amount" = none)
    (h2r : lookupField kvs2 "fraud_rate" = some (Json.num r)) :
    tickRender dom (Json.obj kvs1)
        = .error "TypeError: Cannot read properties of undefined"
      ∧ updateStats dom net1
          = .ok (dom, (apiRequest "GET" none net1).toasts,
              (apiRequest "GET" none net1).logs
                ++ ["Failed to update stats: TypeError: Cannot read properties of undefined"])
      ∧ statsElems (Json.obj kvs2)
          = .ok [("stat-total", jsDisplay (lookupField kvs2 "total_transactions")),
              ("stat-amount", "$NaN"),
              ("stat-fraud", jsDisplay (lookupField kvs2 "fraud_count")),
              ("stat-rate", String.mk (intDigits r) ++ ".00%")]
      ∧ tickRender dom (Json.obj kvs2)
          = .ok (applyElems dom
              [("stat-total", jsDisplay (lookupField kvs2 "total_transactions")),
                ("stat-amount", "$NaN"),
                ("stat-fraud", jsDisplay (lookupField kvs2 "fraud_count")),
                ("stat-rate", String.mk (intDigits r) ++ ".00%")]) := by
  have htick1 : tickRender dom (Json.obj kvs1)
      = .error "TypeError: Cannot read properties of undefined" := by
    simp [tickRender, statsElems, getFieldJS, h1, toFixedJS, Except.map]
  have hse2 : statsElems (Json.obj kvs2)
      = .ok [("stat-total", jsDisplay (lookupField kvs2 "total_transactions")),
          ("stat-amount", "$NaN"),
          ("stat-fraud", jsDisplay (lookupField kvs2 "fraud_count")),
          ("stat-rate", String.mk (intDigits r) ++ ".00%")] := by
    simp [statsElems, getFieldJS, h2r, toFixedJS, formatCurrency, h2a, toNumberJS]
    rw [String.append_assoc]
    rfl
  refine ⟨htick1, by simp [updateStats, hok1, htick1], hse2,
    by simp [tickRender, hse2, Except.map]⟩

theorem updateStats_missing_fields_witness :
    (apiRequest "GET" none (.response true "\x7b\"total_transactions\":10\x7d")).result
        = .ok (Json.obj [("total_transactions", Json.num 10)])
      ∧ lookupField [("total_transactions", Json.num 10)] "fraud_rate" = none
      ∧ lookupField [("total_transactions", Json.num 10), ("fraud_rate", Json.num 3)]
          "total_amount" = none
      ∧ tickRender [("stat-total", "")] (Json.obj [("total_transactions", Json.num 10)])
          = .error "TypeError: Cannot read properties of undefined"
      ∧ statsElems (Json.obj [("total_transactions", Json.num 10), ("fraud_rate", Json.num 3)])
          = .ok [("stat-total", "10"), ("stat-amount", "$NaN"), ("stat-fraud", "undefined"),
              ("stat-rate", "3.00%")] := by
  have h := updateStats_missing_fields [("stat-total", "")]
    [("total_transactions", Json.num 10)]
    [("total_transactions", Json.num 10), ("fraud_rate", Json.num 3)]
    (.response true "\x7b\"total_transactions\":10\x7d") 3 rfl rfl rfl rfl
  refine ⟨rfl, rfl, rfl, h.1, ?_⟩
  have h2 := h.2.2.1
  rw [h2]
  simp [jsDisplay, jsToString, lookupField, intDigits, natDigits, digitChar]

/-- Claim C6: the recurring stats poll is registered exactly when the page
path contains the substring `"dashboard"` (with the 30000 ms period); on
any other page no tick ever runs and no network call is ever made against
the statistics endpoint. -/
theorem dashboard_activation_guard (path1 path2 : String) (dom : Dom)
    (nets : List FetchOutcome)
    (h1 : jsIncludes path1 "dashboard" = false)
    (h2 : jsIncludes path2 "dashboard" = true) :
    (schedulePoller path1 = none ∧ pageRun path1 dom nets = (dom, 0, []))
      ∧ schedulePoller path2 = some 30000
      ∧ (pageRun path2 dom nets).2.1 = nets.length
      ∧ (pageRun path2 dom nets).2.2
          = (List.range nets.length).map (fun i => 30000 * (i + 1)) := by
  have hs1 : schedulePoller path1 = none := by simp [schedulePoller, h1]
  have hs2 : schedulePoller path2 = some 30000 := by simp [schedulePoller, h2]
  refine ⟨⟨hs1, by simp [pageRun, hs1]⟩, hs2, ?_, ?_⟩
  · simp [pageRun, hs2, runTicks_count]
  · simp [pageRun, hs2, runTicks_count]

theorem dashboard_activation_guard_witness :
    jsIncludes "/login" "dashboard" = false
      ∧ jsIncludes "/fraud/dashboard" "dashboard" = true
      ∧ pageRun "/login" [] [.netError "offline", .response true "\x7b\x7d"] = ([], 0, [])
      ∧ (pageRun "/fraud/dashboard" [] [.netError "offline", .response true "\x7b\x7d"]).2.1
          = 2
      ∧ (pageRun "/fraud/dashboard" [] [.netError "offline", .response true "\x7b\x7d"]).2.2
          = [30000, 60000] := by
  have h := dashboard_activation_guard "/login" "/fraud/dashboard" []
    [.netError "offline", .response true "\x7b\x7d"] rfl rfl
  exact ⟨rfl, rfl, h.1.2, h.2.2.1, rfl⟩

/-- Claim C7: a failed tick leaves the recurring schedule intact: no run of
`updateStats` ever raises an exception to the timer, every scheduled tick
executes whatever the earlier outcomes were, and tick `n` fires at its
scheduled time `30000 * (n + 1)` — in particular tick `n + 1` still fires
after tick `n` fails. -/
theorem failed_tick_keeps_schedule (dom : Dom) (nets : List FetchOutcome) :
    (∀ d net, ∃ r, updateStats d net = Except.ok r)
      ∧ (runTicks dom nets).2 = nets.length
      ∧ ∀ n, n < nets.length →
          (pageRun "/dashboard" dom nets).2.2.get? n = some (30000 * (n + 1)) := by
  refine ⟨updateStats_ok, runTicks_count nets dom, ?_⟩
  intro n hn
  have hs : schedulePoller "/dashboard" = some 30000 := rfl
  simp [pageRun, hs, runTicks_count, List.getElem?_map, List.getElem?_range, hn]

theorem failed_tick_keeps_schedule_witness :
    tickFails [] (.netError "boom") = true
      ∧ (runTicks [] [.netError "boom", .response false "bad json"]).2 = 2
      ∧ (pageRun "/dashboard" [] [.netError "boom", .response false "bad json"]).2.2.get? 1
          = some (30000 * (1 + 1))
      ∧ (pageRun "/dashboard" [] [.netError "boom", .response false "bad json"]).2.2
          = [30000, 60000] := by
  have h := failed_tick_keeps_schedule [] [.netError "boom", .response false "bad json"]
  exact ⟨rfl, h.2.1, h.2.2 1 (by decide), rfl⟩

/-- Claim C10: every toast is removed from the document automatically, with
no user interaction, once 5000 ms of display plus the 300 ms fade-out have
elapsed since it was shown — whatever its message and severity type. -/
theorem showToast_auto_removal (message ttype : String) (t0 now : Nat)
    (h : t0 + 5300 ≤ now) :
    (toastRun (showToastSim message ttype t0) now).inDoc = false := by
  have ha : t0 + 5000 ≤ now := by omega
  have hb : t0 + 5000 + 300 ≤ now := by omega
  simp [toastRun, toastStep, showToastSim, ha, hb]

theorem showToast_auto_removal_witness :
    0 + 5300 ≤ 5300
      ∧ (toastRun (showToastSim "Transaction flagged" "warning" 0) 5300).inDoc = false
      ∧ (toastRun (showToastSim "Transaction flagged" "warning" 0) 5299).inDoc = true := by
  exact ⟨by decide, showToast_auto_removal "Transaction flagged" "warning" 0 5300 (by decide),
    rfl⟩
